import Mathlib

/-! ## Python dict model -/

/-- A Python `dict`: association list in insertion order, keys unique. -/
abbrev PyDict (α β : Type) := List (α × β)

/-- Python dict lookup `d.get(k)` / `k in d`: the (unique) binding of `k`. -/
def dictGet? {α β : Type} [DecidableEq α] : PyDict α β → α → Option β
  | [], _ => none
  | (k, v) :: d, a => if k = a then some v else dictGet? d a

/-- Python dict lookup with default, `d.get(k, dflt)`. -/
def dictGetD {α β : Type} [DecidableEq α] (d : PyDict α β) (a : α) (dflt : β) : β :=
  (dictGet? d a).getD dflt

/-- Python dict assignment `d[k] = v`: updating an existing key keeps its position, a new key is
appended (CPython insertion-order semantics). -/
def dictSet {α β : Type} [DecidableEq α] : PyDict α β → α → β → PyDict α β
  | [], a, b => [(a, b)]
  | (k, v) :: d, a, b => if k = a then (k, b) :: d else (k, v) :: dictSet d a b

/-- Python `list(d.keys())`, in insertion order. -/
def dictKeys {α β : Type} (d : PyDict α β) : List α := d.map Prod.fst

/-- Well-formedness: each key bound at most once (true of every Python dict). -/
def DictNodup {α β : Type} (d : PyDict α β) : Prop := (dictKeys d).Nodup

/-- Sum of all values of a `PyDict` (used for `sum(tf_by_field.values())`). -/
def dictSumValues {α : Type} (d : PyDict α Nat) : Nat := (d.map Prod.snd).sum

/-- Python `set.add` on the insertion-ordered list model of a set. -/
def setAdd {α : Type} [DecidableEq α] (s : List α) (a : α) : List α :=
  if a ∈ s then s else s ++ [a]

/-- Python `set(xs)` where the model's iteration order is first-occurrence order. -/
def dedupKeepOrder {α : Type} [DecidableEq α] (xs : List α) : List α :=
  xs.foldl setAdd []

/-! ## Python string and list helpers -/

/-- Python `str.lower()` (ASCII case mapping; the accented characters appearing
in the inputs of this development are already lower-case). -/
def pyLower (s : String) : String := String.mk (s.toList.map Char.toLower)

/-- Python `str.strip()` with no argument (strip surrounding whitespace). -/
def pyStrip (s : String) : String :=
  String.mk (((s.toList.dropWhile Char.isWhitespace).reverse.dropWhile
    Char.isWhitespace).reverse)

/-- Python `str.isdigit()` restricted to ASCII: nonempty and all digits. -/
def pyIsDigit (s : String) : Bool := !s.isEmpty && s.toList.all Char.isDigit

/-- Python `s[i:i+len]` by code points (as Python slices `str`). -/
def pySub (s : String) (i len : Nat) : String := String.mk ((s.toList.drop i).take len)

/-- Python `lst[start:stop]` for nonnegative bounds with `start ≤ stop`. -/
def pySlice {α : Type} (l : List α) (start stop : Nat) : List α :=
  (l.drop start).take (stop - start)

/-- Python `s.replace(underscore, space)` (single-character replacement). -/
def replaceUnderscore (s : String) : String :=
  String.mk (s.toList.map (fun ch => if ch = '_' then ' ' else ch))

/-- Sort key ordering used to model Python's stable `sorted` / `list.sort`:
compare `(ℚ, Int)` keys lexicographically and fall back to the original list
position.  A stable sort is exactly a sort by `(key, original index)`. -/
def pyKey {α : Type} (key : α → ℚ × Int) (x y : Nat × α) : Prop :=
  (key x.2).1 < (key y.2).1 ∨
    ((key x.2).1 = (key y.2).1 ∧
      ((key x.2).2 < (key y.2).2 ∨ ((key x.2).2 = (key y.2).2 ∧ x.1 ≤ y.1)))

instance {α : Type} (key : α → ℚ × Int) : DecidableRel (pyKey key) := fun x y => by
  unfold pyKey
  exact inferInstance

instance {α : Type} (key : α → ℚ × Int) : IsTotal (Nat × α) (pyKey key) where
  total x y := by
    unfold pyKey
    rcases lt_trichotomy (key x.2).1 (key y.2).1 with h | h | h
    · exact Or.inl (Or.inl h)
    · rcases lt_trichotomy (key x.2).2 (key y.2).2 with h2 | h2 | h2
      · exact Or.inl (Or.inr ⟨h, Or.inl h2⟩)
      · rcases Nat.le_total x.1 y.1 with h3 | h3
        · exact Or.inl (Or.inr ⟨h, Or.inr ⟨h2, h3⟩⟩)
        · exact Or.inr (Or.inr ⟨h.symm, Or.inr ⟨h2.symm, h3⟩⟩)
      · exact Or.inr (Or.inr ⟨h.symm, Or.inl h2⟩)
    · exact Or.inr (Or.inl h)

instance {α : Type} (key : α → ℚ × Int) : IsTrans (Nat × α) (pyKey key) where
  trans x y z hxy hyz := by
    unfold pyKey at *
    rcases hxy with h1 | ⟨e1, h1⟩
    · rcases hyz with h2 | ⟨e2, _⟩
      · exact Or.inl (h1.trans h2)
      · exact Or.inl (e2 ▸ h1)
    · rcases hyz with h2 | ⟨e2, h2⟩
      · exact Or.inl (e1 ▸ h2)
      · refine Or.inr ⟨e1.trans e2, ?_⟩
        rcases h1 with h1 | ⟨f1, h1⟩
        · rcases h2 with h2 | ⟨f2, _⟩
          · exact Or.inl (h1.trans h2)
          · exact Or.inl (f2 ▸ h1)
        · rcases h2 with h2 | ⟨f2, h2⟩
          · exact Or.inl (f1 ▸ h2)
          · exact Or.inr ⟨f1.trans f2, h1.trans h2⟩

/-- Position of an element in a list (its first index), used to express
insertion order. -/
def posIn {α : Type} [DecidableEq α] (l : List α) (a : α) : Nat := List.indexOf a l

/-- Model of Python's stable `sorted(l, key=key)` for `(ℚ, Int)`-valued keys
(ascending lexicographic): sort the enumerated list by `(key, index)`. -/
def pySortedByKey {α : Type} (key : α → ℚ × Int) (l : List α) : List α :=
  (l.enum.insertionSort (pyKey key)).map Prod.snd

/-! ## Tokenizer (`src/search/tokenizer.py`)

The tokenizer's linguistic collaborators are external to the repository:
NLTK's English stop-word list and the WordNet lemmatizer (`nltk`), Python's
`unicodedata` and the `regex` module.  The pipeline itself (the order of the
steps) is translated from the source; the collaborators are a `Lexicon`
parameter resp. small concrete character tables sufficient for the inputs
appearing in this development. -/

/-- External linguistic data used by `tokenize` (NLTK stop words, WordNet
lemmatizer), kept abstract as the spec's `Lexicon` collaborator. -/
structure Lexicon where
  stop : String → Bool
  lemmaV : String → String
  lemmaN : String → String

/-- The character U+0301 COMBINING ACUTE ACCENT. -/
def combiningAcute : Char := Char.ofNat 769

/-- Model of `unicodedata.normalize("NFKD", ·)` per character, covering ASCII
(which NFKD leaves unchanged) and the accented letter appearing in the
spec's tokenizer example. -/
def nfkdChar (c : Char) : List Char :=
  if c = 'é' then ['e', combiningAcute] else [c]

/-- Model of `unicodedata.combining(ch) != 0` for the same character range. -/
def isCombining (c : Char) : Bool := c = combiningAcute

/-- The source's `normalize_unicode`: NFKD-decompose, then drop combining marks. -/
def normalize_unicode (s : String) : String :=
  String.mk (((s.toList.map nfkdChar).flatten).filter (fun c => !isCombining c))

/-- Unicode general category P (punctuation) restricted to ASCII, as matched
by the source's `regex` pattern for punctuation. -/
def isPunct (c : Char) : Bool :=
  c ∈ ['!', '"', '#', '%', '&', '(', ')', '*', ',', '-', '.', '/',
       ':', ';', '?', '@', '[', '\\', ']', '_'] || c = Char.ofNat 39 ||
    c = Char.ofNat 123 || c = Char.ofNat 125

/-- Replace each maximal run of punctuation by a single space (the source's
`regex.sub` of one-or-more punctuation with a space). -/
def cleanPunctAux : List Char → Bool → List Char
  | [], _ => []
  | c :: cs, inRun =>
    if isPunct c then
      if inRun then cleanPunctAux cs true
      else ' ' :: cleanPunctAux cs true
    else c :: cleanPunctAux cs false

/-- The source's `clean_punctuation`. -/
def clean_punctuation (s : String) : String := String.mk (cleanPunctAux s.toList false)

/-- Python `str.split()` with no argument: split on whitespace runs, no empty
parts. -/
def splitWsAux : List Char → List Char → List String
  | [], acc => if acc = [] then [] else [String.mk acc.reverse]
  | c :: cs, acc =>
    if c.isWhitespace then
      if acc = [] then splitWsAux cs []
      else String.mk acc.reverse :: splitWsAux cs []
    else splitWsAux cs (c :: acc)

/-- Python `str.split()`. -/
def pySplit (s : String) : List String := splitWsAux s.toList []

/-- The source's `tokenize(text, use_lemmatization)`: lower-case, NFKD accent stripping,
punctuation to spaces, whitespace split, stop-word removal, then verb-pos
lemmatization followed by noun-pos lemmatization. -/
def tokenize (lex : Lexicon) (text : String) (use_lemmatization : Bool) : List String :=
  if text = "" then []
  else
    let text1 := pyLower text
    let text2 := normalize_unicode text1
    let text3 := clean_punctuation text2
    let tokens := pySplit text3
    let tokens := tokens.filter (fun t => !lex.stop t)
    if use_lemmatization then
      let tokens := tokens.map lex.lemmaV
      tokens.map lex.lemmaN
    else tokens

/-! ## Data model (`src/search/indexer.py`) -/

/-- A document field value: the corpus stores strings or lists of strings. -/
inductive FieldValue where
  | vstr (s : String)
  | vlist (l : List String)
deriving DecidableEq

/-- The `build` field coercion: list values are space-joined, scalars are kept
as their string form (`str(...)` is the identity on strings). -/
def FieldValue.toText : FieldValue → String
  | .vstr s => s
  | .vlist l => String.intercalate " " l

/-- A corpus document: an id (`doc["id"]`) plus its named fields. -/
structure Document where
  id : Int
  fields : PyDict String FieldValue
deriving DecidableEq

/-- Field text of a document, as read by `build` (documents of the corpus
carry every indexed field; a missing field is read as the empty string). -/
def fieldTextOf (doc : Document) (field : String) : String :=
  (dictGetD doc.fields field (.vstr "")).toText

/-- A posting: field set, total term frequency, per-field term frequency. -/
structure Posting where
  fields : List String
  tf : Nat
  tf_by_field : PyDict String Nat
deriving DecidableEq

/-- The fresh posting inserted by `add_tokens` before its first increment. -/
def emptyPosting : Posting := ⟨[], 0, []⟩

/-- One iteration of `add_tokens`' token loop on one posting: add the field
to the field set, bump `tf`, bump `tf_by_field[field]`. -/
def bumpPosting (p : Posting) (field : String) : Posting :=
  { fields := setAdd p.fields field
    tf := p.tf + 1
    tf_by_field := dictSet p.tf_by_field field (dictGetD p.tf_by_field field 0 + 1) }

/-- The `Indexer` state (`Indexer.__init__`). `ngram_index` is a
`defaultdict(set)`; each set is modelled as an insertion-ordered list. -/
structure Indexer where
  index : PyDict String (PyDict Int Posting)
  documents : PyDict Int Document
  total_documents : Nat
  doc_freq : PyDict String Nat
  index_tokens : List String
  ngram_index : PyDict String (List String)
  ngram_n : Nat
deriving DecidableEq

/-- The fresh `Indexer()`. -/
def Indexer.init : Indexer := ⟨[], [], 0, [], [], [], 3⟩

/-- One iteration of `add_tokens`' token loop on the whole inverted index:
fetch-or-create the token's posting dict and the doc's posting, bump it. -/
def addTokensIndexStep (doc_id : Int) (field_name : String)
    (ix : PyDict String (PyDict Int Posting)) (token : String) :
    PyDict String (PyDict Int Posting) :=
  let postings := dictGetD ix token []
  let posting := dictGetD postings doc_id emptyPosting
  dictSet ix token (dictSet postings doc_id (bumpPosting posting field_name))

/-- The source's `Indexer.add_tokens(doc_id, field_name, tokens, full_doc)`. -/
def Indexer.add_tokens (idx : Indexer) (doc_id : Int) (field_name : String)
    (tokens : List String) (full_doc : Option Document) : Indexer :=
  let index := tokens.foldl (addTokensIndexStep doc_id field_name) idx.index
  let documents := match full_doc with
    | some d => dictSet idx.documents doc_id d
    | none => idx.documents
  { idx with index := index, documents := documents }

/-- The source's `Indexer._ngrams(s, n)`: trigrams; bigrams if the (stripped) string is
shorter than `n`; the string itself if shorter than 2. -/
def _ngrams (s : String) (n : Nat) : List String :=
  let t := pyStrip s
  if t = "" then []
  else if t.length < n then
    if t.length < 2 then [t]
    else (List.range (t.length - 1)).map (fun i => pySub t i 2)
  else (List.range (t.length - n + 1)).map (fun i => pySub t i n)

/-- One document-field pass of `build`: update `doc_freq` and `seen_tokens`
for first occurrences, then `add_tokens`. -/
def Indexer.buildField (idx : Indexer) (lex : Lexicon) (doc : Document)
    (seen : List String) (field : String) : Indexer × List String :=
  let field_text := fieldTextOf doc field
  let tokens := tokenize lex field_text true
  let update := tokens.foldl
    (fun (st : PyDict String Nat × List String) token =>
      if token ∈ st.2 then st
      else (dictSet st.1 token (dictGetD st.1 token 0 + 1), st.2 ++ [token]))
    (idx.doc_freq, seen)
  let idx := { idx with doc_freq := update.1 }
  (idx.add_tokens doc.id field tokens (some doc), update.2)

/-- One document pass of `build`: bump `total_documents`, then process every
field with a fresh `seen_tokens` set. -/
def Indexer.buildDoc (idx : Indexer) (lex : Lexicon) (fields : List String)
    (doc : Document) : Indexer :=
  let idx := { idx with total_documents := idx.total_documents + 1 }
  (fields.foldl (fun (st : Indexer × List String) field =>
      Indexer.buildField st.1 lex doc st.2 field) (idx, [])).1

/-- The final phase of `build`: snapshot the vocabulary into `index_tokens`
and rebuild the n-gram index over it. -/
def Indexer.rebuildNgrams (idx : Indexer) : Indexer :=
  let index_tokens := dictKeys idx.index
  let ngram_index := index_tokens.foldl
    (fun ni tok =>
      (_ngrams tok idx.ngram_n).foldl
        (fun ni g => dictSet ni g (setAdd (dictGetD ni g []) tok)) ni)
    []
  { idx with index_tokens := index_tokens, ngram_index := ngram_index }

/-- The source's `Indexer.build(documents, fields)`. -/
def Indexer.build (idx : Indexer) (lex : Lexicon) (documents : List Document)
    (fields : List String) : Indexer :=
  (documents.foldl (fun ix doc => ix.buildDoc lex fields doc) idx).rebuildNgrams

/-- The source's `Indexer.lookup(token)`: in the pure model the defensive copies made by
the source are identity. -/
def Indexer.lookup (idx : Indexer) (token : String) : PyDict Int Posting :=
  dictGetD idx.index token []

/-- The source's `Indexer.idf(token) = log(total_documents / (doc_freq + 1))`; `math.log`
is the external parameter `log`. -/
def Indexer.idf (idx : Indexer) (log : ℚ → ℚ) (token : String) : ℚ :=
  let df := dictGetD idx.doc_freq token 0
  log ((idx.total_documents : ℚ) / ((df : ℚ) + 1))

/-- The candidate-count accumulation of `fuzzy_candidates`: for each n-gram of
the token, count every vocabulary token indexed under that n-gram. -/
def Indexer.fuzzyCounts (idx : Indexer) (token : String) : PyDict String Nat :=
  let grams := _ngrams token idx.ngram_n
  grams.foldl
    (fun counts g =>
      (dictGetD idx.ngram_index g []).foldl
        (fun counts cand => dictSet counts cand (dictGetD counts cand 0 + 1)) counts)
    []

/-- The source's `Indexer.fuzzy_candidates(token, max_candidates)`: keep candidates with
count at least `min_overlap` (2 if the token has length at least 6, else 1),
stable-sort by count descending, truncate. -/
def Indexer.fuzzy_candidates (idx : Indexer) (token : String)
    (max_candidates : Nat) : List String :=
  let counts := idx.fuzzyCounts token
  if counts = [] then []
  else
    let min_overlap := if 6 ≤ token.length then 2 else 1
    let ranked := counts.filter (fun p => min_overlap ≤ p.2)
    let ranked := pySortedByKey (fun p => (-(p.2 : ℚ), 0)) ranked
    (ranked.take max_candidates).map Prod.fst

/-! ## Query engine (`src/search/query.py`) -/

/-- External collaborators of the query engine: `math.log`, WordNet synsets
(`wordnet.synsets(token)`, as the lemma names of each synset in order), and
`rapidfuzz.process.extract` (token, candidate list, limit; scores 0-100). -/
structure Collab where
  log : ℚ → ℚ
  synsets : String → List (List String)
  extract : String → List String → Nat → List (String × ℚ)

def FIELD_WEIGHTS : PyDict String ℚ :=
  [("title", 5), ("cast", 4), ("director", 3), ("genres", 3),
   ("description", 1), ("year", 1/2), ("rating", 1/10)]

def FUZZY_MIN_TOKEN_LEN : Nat := 4

def FUZZY_MAX_TOKENS_PER_QUERY : Nat := 3

def FUZZY_SCORE_THRESHOLD : ℚ := 80

def FUZZY_NON_TITLE_PENALTY : ℚ := 6/10

def FUZZY_DESCRIPTION_PENALTY : ℚ := 8/10

def SYN_MAX_PER_BASE_TOKEN : Nat := 5

def SYN_SKIP_SHORT_TOKENS_LEN : Nat := 3

/-- Inner loop of `synonyms`: add normalized lemma tokens (never the base
token itself), counting every addition; break once the per-base budget is
reached. -/
def synFromTokens (token : String) : List String → List String → Nat → List String × Nat
  | [], expanded, added => (expanded, added)
  | nt :: rest, expanded, added =>
    if nt = token then synFromTokens token rest expanded added
    else
      let expanded := setAdd expanded nt
      let added := added + 1
      if SYN_MAX_PER_BASE_TOKEN ≤ added then (expanded, added)
      else synFromTokens token rest expanded added

/-- Middle loop of `synonyms`: each lemma name has underscores replaced by
spaces, is lower-cased and re-tokenized. -/
def synFromLemmas (lex : Lexicon) (token : String) :
    List String → List String → Nat → List String × Nat
  | [], expanded, added => (expanded, added)
  | lm :: rest, expanded, added =>
    let raw := pyLower (replaceUnderscore lm)
    let nts := tokenize lex raw true
    let res := synFromTokens token nts expanded added
    if SYN_MAX_PER_BASE_TOKEN ≤ res.2 then res
    else synFromLemmas lex token rest res.1 res.2

/-- Outer loop of `synonyms` over the synsets of one base token. -/
def synFromSynsets (lex : Lexicon) (token : String) :
    List (List String) → List String → Nat → List String × Nat
  | [], expanded, added => (expanded, added)
  | syn :: rest, expanded, added =>
    let res := synFromLemmas lex token syn expanded added
    if SYN_MAX_PER_BASE_TOKEN ≤ res.2 then res
    else synFromSynsets lex token rest res.1 res.2

/-- The source's `QueryEngine.synonyms(base_tokens)`: returns `(base_tokens,
expanded_tokens)`; pure-digit and short base tokens are not expanded. -/
def QueryEngine.synonyms (c : Collab) (lex : Lexicon) (base_tokens : List String) :
    List String × List String :=
  let expanded := base_tokens.foldl
    (fun expanded token =>
      if pyIsDigit token then expanded
      else if token.length ≤ SYN_SKIP_SHORT_TOKENS_LEN then expanded
      else (synFromSynsets lex token (c.synsets token) expanded 0).1)
    base_tokens
  (base_tokens, expanded)

/-- The source's `QueryEngine.get_closest_token(token, index_tokens)`: rapidfuzz extract
with limit 3, keep scores at least the threshold, normalize to 0-1. -/
def QueryEngine.get_closest_token (c : Collab) (token : String)
    (index_tokens : List String) : List (String × ℚ) :=
  let ms := c.extract token index_tokens 3
  (ms.filter (fun m => FUZZY_SCORE_THRESHOLD ≤ m.2)).map (fun m => (m.1, m.2 / 100))

/-- A scoring explanation record (the source emits these only under `debug`;
the model always tracks them, `debug` only controls whether they are
rendered). -/
structure Explanation where
  token : String
  field : String
  weight : ℚ
  tf_field : Nat
  idf : ℚ
  similarity : ℚ
  contribution : ℚ
deriving DecidableEq

/-- Mutable state of `QueryEngine.search`'s scoring loop. -/
structure LoopState where
  scores : PyDict Int ℚ
  expl : PyDict Int (List Explanation)
  fuzzy_budget : Nat
deriving DecidableEq

/-- Per-field scoring of one posting: weight by field, skip zero `field_tf`,
apply fuzzy penalties for non-exact matches (description 0.8, other
non-title 0.6, title unpenalized). -/
def fieldStep (token : String) (idf similarity : ℚ) (tf_by_field : PyDict String Nat)
    (doc_id : Int) (st : LoopState) (field : String) : LoopState :=
  let weight := dictGetD FIELD_WEIGHTS field 0
  let field_tf := dictGetD tf_by_field field 0
  if field_tf = 0 then st
  else
    let contribution := weight * (field_tf : ℚ) * idf
    let contribution :=
      if similarity < 1 then
        if field = "description" then contribution * FUZZY_DESCRIPTION_PENALTY
        else if field ≠ "title" then contribution * FUZZY_NON_TITLE_PENALTY
        else contribution
      else contribution
    { st with
      scores := dictSet st.scores doc_id (dictGetD st.scores doc_id 0 + contribution)
      expl := dictSet st.expl doc_id (dictGetD st.expl doc_id [] ++
        [⟨token, field, weight, dictGetD tf_by_field field 0, idf, similarity, contribution⟩]) }

/-- Per-document scoring of one matched token: `scores.setdefault(doc_id, 0)`
then iterate the posting's fields. -/
def docStep (token : String) (idf similarity : ℚ) (st : LoopState)
    (entry : Int × Posting) : LoopState :=
  let st := { st with
    scores := if (dictGet? st.scores entry.1).isSome then st.scores
              else dictSet st.scores entry.1 0
    expl := if (dictGet? st.expl entry.1).isSome then st.expl
            else dictSet st.expl entry.1 [] }
  entry.2.fields.foldl (fieldStep token idf similarity entry.2.tf_by_field entry.1) st

/-- Scoring of one `(match_token, similarity)` pair: effective idf is
`idf(match_token) * similarity`; walk the posting list. -/
def matchStep (c : Collab) (idx : Indexer) (token : String) (st : LoopState)
    (m : String × ℚ) : LoopState :=
  let postings := idx.lookup m.1
  let idf := idx.idf c.log m.1 * m.2
  postings.foldl (docStep token idf m.2) st

/-- One iteration of `QueryEngine.search`'s token loop: exact hit scores with
similarity 1; otherwise the fuzzy branch runs only for base, non-digit,
long-enough tokens while budget remains, decrements the budget once
candidates exist, and scores any kept matches. -/
def tokenStep (c : Collab) (idx : Indexer) (base_tokens : List String)
    (st : LoopState) (token : String) : LoopState :=
  if (dictGet? idx.index token).isSome then
    [(token, (1 : ℚ))].foldl (matchStep c idx token) st
  else if token ∉ base_tokens then st
  else if pyIsDigit token then st
  else if token.length < FUZZY_MIN_TOKEN_LEN then st
  else if st.fuzzy_budget = 0 then st
  else
    let candidates := idx.fuzzy_candidates token 300
    if candidates = [] then st
    else
      let token_matches := QueryEngine.get_closest_token c token candidates
      let st := { st with fuzzy_budget := st.fuzzy_budget - 1 }
      if token_matches = [] then st
      else token_matches.foldl (matchStep c idx token) st

/-- The scoring state after `QueryEngine.search`'s main loop: tokenize, form
the base-token set, expand synonyms, then score each expanded token. -/
def QueryEngine.searchState (c : Collab) (lex : Lexicon) (idx : Indexer)
    (q : String) : LoopState :=
  let tokens := tokenize lex q true
  let base_tokens := dedupKeepOrder tokens
  let expanded := (QueryEngine.synonyms c lex base_tokens).2
  expanded.foldl (tokenStep c idx base_tokens) ⟨[], [], FUZZY_MAX_TOKENS_PER_QUERY⟩

/-- Python `sorted(scores.items(), key=lambda x: (-x[1], x[0]))`. -/
def QueryEngine.rankedDocs (c : Collab) (lex : Lexicon) (idx : Indexer)
    (q : String) : List (Int × ℚ) :=
  pySortedByKey (fun p => (-p.2, p.1)) (QueryEngine.searchState c lex idx q).scores

/-- A rendered result item (the dict built at the end of `search`). -/
structure ResultItem where
  doc_id : Int
  title : FieldValue
  director : FieldValue
  cast : FieldValue
  year : FieldValue
  rating : FieldValue
  score : Option ℚ
  explanations : Option (List Explanation)
deriving DecidableEq

/-- Rendering of one ranked `(doc_id, score)` pair from the stored document;
`score`/`explanations` are attached only under `debug`. -/
def renderItem (idx : Indexer) (expl : PyDict Int (List Explanation)) (debug : Bool)
    (p : Int × ℚ) : ResultItem :=
  let doc_fields := match dictGet? idx.documents p.1 with
    | some d => d.fields
    | none => []
  { doc_id := p.1
    title := dictGetD doc_fields "title" (.vstr "")
    director := dictGetD doc_fields "director" (.vstr "")
    cast := dictGetD doc_fields "cast" (.vlist [])
    year := dictGetD doc_fields "year" (.vstr "")
    rating := dictGetD doc_fields "rating" (.vstr "")
    score := if debug then some p.2 else none
    explanations := if debug then some (dictGetD expl p.1 []) else none }

/-- The source's `QueryEngine.search(query_string, debug)`. -/
def QueryEngine.search (c : Collab) (lex : Lexicon) (idx : Indexer) (q : String)
    (debug : Bool) : List ResultItem :=
  if q = "" then []
  else if tokenize lex q true = [] then []
  else
    let st := QueryEngine.searchState c lex idx q
    (pySortedByKey (fun p => (-p.2, p.1)) st.scores).map (renderItem idx st.expl debug)

/-! ## Shard search service (`src/app/core/search_service.py`) -/

/-- Error taxonomy of `app.core.exceptions` (identified by `code`). -/
inductive SearchErrorCode where
  | SEARCH_ERROR
  | INDEX_NOT_READY
  | INVALID_QUERY
deriving DecidableEq

/-- The pydantic `SearchResponse` transport model. -/
structure SearchResponse where
  query : String
  total_hits : Nat
  page : Int
  page_size : Nat
  results : List ResultItem
deriving DecidableEq

/-- The result projection at the end of `SearchService.search`:
`score`/`explanations` survive only when the caller's `debug` is true. -/
def toSearchResult (debug : Bool) (r : ResultItem) : ResultItem :=
  { r with
    score := if debug then r.score else none
    explanations := if debug then r.explanations else none }

/-- The source's `SearchService.search(query, page, page_size, debug)`.  The
`not self.indexer` guard is always false (an `Indexer` object is truthy), so
the readiness check is exactly `total_documents == 0`.  `page` is an `int`;
`page_size` is nonnegative (validated at the API layer), and with
`page >= 1` the slice bounds are nonnegative. -/
def SearchService.search (c : Collab) (lex : Lexicon) (idx : Indexer)
    (query : String) (page : Int) (page_size : Nat) (debug : Bool) :
    Except SearchErrorCode SearchResponse :=
  if idx.total_documents = 0 then .error .INDEX_NOT_READY
  else if pyStrip query = "" then .error .INVALID_QUERY
  else if page < 1 then .error .INVALID_QUERY
  else
    let raw := QueryEngine.search c lex idx query debug
    let total_hits := raw.length
    let start := (page - 1).toNat * page_size
    let page_results := pySlice raw start (start + page_size)
    .ok ⟨query, total_hits, page, page_size, page_results.map (toSearchResult debug)⟩

/-! ## Coordinator fan-out and merge (`src/app/coordinator_main.py`)

The HTTP transport between coordinator and shards is external; a shard group
answering a request is modelled as a direct call into that shard's
`SearchService` (the internal route forces `debug=True` so scores reach the
coordinator).  A shard group whose service raises is a failed group. -/

/-- Outcome of the coordinator `/search` handler, restricted to the merge
data the claims are about: `ok` vs `partial`, summed `total_hits`, and the
merged, sorted, sliced result page. -/
structure FanoutOutcome where
  all_ok : Bool
  total_hits : Nat
  results : List ResultItem
deriving DecidableEq

/-- The coordinator `search` handler: `k = page * page_size` is sent as the
per-shard `page_size` while the client's `page` is passed through; merge all
returned items with sort key `(-score, doc_id)`; slice `[start:end]` with
`start=(page-1)*page_size`. -/
def Coordinator.search (c : Collab) (lex : Lexicon) (shards : List Indexer)
    (q : String) (page page_size : Nat) (debug : Bool) : FanoutOutcome :=
  let k := page * page_size
  let calls := shards.map (fun idx => SearchService.search c lex idx q (page : Int) k true)
  let shard_results := calls.filterMap (fun r => match r with
    | .ok resp => some resp
    | .error _ => none)
  let all_ok := calls.all (fun r => match r with
    | .ok _ => true
    | .error _ => false)
  let total_hits := (shard_results.map (fun sr => sr.total_hits)).sum
  let merged := shard_results.flatMap (fun sr =>
    sr.results.map (fun item => (item.score.getD 0, item.doc_id, item)))
  let merged := pySortedByKey (fun t => (-t.1, t.2.1)) merged
  let start := (page - 1) * page_size
  let page_items := pySlice merged start (start + page_size)
  let results := page_items.map (fun t =>
    { t.2.2 with
      score := if debug then some t.1 else none
      explanations := if debug then t.2.2.explanations else none })
  ⟨all_ok, total_hits, results⟩

/-- The page a single combined index would return, in the words of the C1
claim: the union of the matching documents of all shards, as `(doc_id,
score)` pairs, sorted by `(-score, doc_id)` and sliced `[start:end]`. -/
def globalPage (c : Collab) (lex : Lexicon) (shards : List Indexer)
    (q : String) (page page_size : Nat) : List (Int × ℚ) :=
  let all := (shards.map (fun idx => QueryEngine.rankedDocs c lex idx q)).flatten
  let sorted := pySortedByKey (fun p => (-p.2, p.1)) all
  let start := (page - 1) * page_size
  pySlice sorted start (start + page_size)

/-! ## Replica membership and heartbeat (`src/app/coordinator_main.py`) -/

def HEARTBEAT_SUSPECT_AFTER_FAILURES : Nat := 2

def HEARTBEAT_DOWN_AFTER_FAILURES : Nat := 5

inductive ReplicaStatus where
  | up
  | suspect
  | down
deriving DecidableEq

/-- The `ReplicaState` dataclass; timestamps and round-trip times in `ℚ`. -/
structure ReplicaState where
  status : ReplicaStatus
  consecutive_failures : Nat
  last_seen_ts : Option ℚ
  last_rtt_ms : Option ℚ
  ready : Bool
deriving DecidableEq

/-- The `ReplicaState()` defaults, as inserted for a newly seen replica by
`_init_membership` and the heartbeat loop's `setdefault`. -/
def ReplicaState.init : ReplicaState := ⟨.suspect, 0, none, none, false⟩

/-- Outcome of one `_heartbeat_once` probe: a transport exception, or an HTTP
response with its status code and round-trip time. -/
inductive ProbeResult where
  | exn
  | http (status_code : Nat) (rtt_ms : ℚ)
deriving DecidableEq

/-- The per-replica update of the heartbeat loop: reset the failure counter
on HTTP 200, bump it otherwise, then recompute the status from the
counter. -/
def heartbeatUpdate (s : ReplicaState) (res : ProbeResult) (now : ℚ) : ReplicaState :=
  let s := match res with
    | .exn =>
      { s with consecutive_failures := s.consecutive_failures + 1, ready := false }
    | .http code rtt =>
      if code = 200 then
        { s with consecutive_failures := 0, last_seen_ts := some now,
                 last_rtt_ms := some rtt, ready := true }
      else
        { s with consecutive_failures := s.consecutive_failures + 1, ready := false,
                 last_rtt_ms := some rtt }
  { s with status :=
      if HEARTBEAT_DOWN_AFTER_FAILURES ≤ s.consecutive_failures then .down
      else if HEARTBEAT_SUSPECT_AFTER_FAILURES ≤ s.consecutive_failures then .suspect
      else .up }

/-! ## Concrete modelled collaborators and corpora for evaluation -/

/-- Modelled NLTK English stop-word list (the subset relevant to the texts in
this development; all other words here are not NLTK stop words). -/
def englishStopWords : List String :=
  ["a", "an", "and", "are", "as", "at", "be", "but", "by", "for", "if",
   "in", "into", "is", "it", "no", "not", "of", "on", "or", "such", "that",
   "the", "their", "then", "there", "these", "they", "this", "to", "was",
   "will", "with"]

/-- Modelled WordNet verb-pos lemmatizer on this development's vocabulary:
"running" lemmatizes to "run"; the remaining words are fixed points. -/
def wordnetLemmaV (t : String) : String := if t = "running" then "run" else t

/-- Modelled WordNet noun-pos lemmatizer (identity on this development's
vocabulary). -/
def wordnetLemmaN (t : String) : String := t

/-- Concrete lexicon modelling the NLTK data the repository loads. -/
def englishLexicon : Lexicon :=
  ⟨fun t => t ∈ englishStopWords, wordnetLemmaV, wordnetLemmaN⟩

/-- Degenerate numeric/lexical collaborators for concrete evaluations:
`log` constantly 0, no synsets, `extract` finds nothing. -/
def trivialCollab : Collab := ⟨fun _ => 0, fun _ => [], fun _ _ _ => []⟩

def docHello1 : Document := ⟨1, [("title", .vstr "hello")]⟩

def docHello2 : Document := ⟨2, [("title", .vstr "hello")]⟩

/-- A shard holding two documents that both match the query "hello". -/
def idxTwoHello : Indexer :=
  Indexer.build Indexer.init englishLexicon [docHello1, docHello2] ["title"]

/-- A one-document index. -/
def idxOneHello : Indexer :=
  Indexer.build Indexer.init englishLexicon [docHello1] ["title"]

/-- A second one-document shard (used to form a two-shard topology). -/
def idxOneHello2 : Indexer :=
  Indexer.build Indexer.init englishLexicon [docHello2] ["title"]

/-- The posting stored under token `t` and document `d` of an inverted
index, if any. -/
def postingOf (ix : PyDict String (PyDict Int Posting)) (t : String) (d : Int) :
    Option Posting :=
  (dictGet? ix t).bind (fun ps => dictGet? ps d)

/-- Iterated `bumpPosting`, `c` times (the net effect of `c` occurrences of
one token in one field on its posting). -/
def bumpN (p : Posting) (f : String) : Nat → Posting
  | 0 => p
  | c + 1 => bumpPosting (bumpN p f c) f

/-- Net effect of `c` occurrences of a token in field `f` on an optional
posting: absent postings are created on the first occurrence. -/
def optBump (q : Option Posting) (f : String) (c : Nat) : Option Posting :=
  match c with
  | 0 => q
  | c + 1 =>
    match q with
    | some p => some (bumpN p f (c + 1))
    | none => some (bumpN emptyPosting f (c + 1))

/-- Effect on one `(token, doc)` posting of indexing all fields of a
document in order. -/
def fieldsBump (lex : Lexicon) (doc : Document) (t : String) (q : Option Posting)
    (fs : List String) : Option Posting :=
  fs.foldl (fun q f => optBump q f ((tokenize lex (fieldTextOf doc f) true).count t)) q

/-- The number of occurrences of token `t` across the indexed fields of a
document (each field's text tokenized as `build` tokenizes it). -/
def docOccurrences (lex : Lexicon) (fields : List String) (doc : Document)
    (t : String) : Nat :=
  (fields.map (fun f => (tokenize lex (fieldTextOf doc f) true).count t)).sum

/-! ## Claim C7 -/

/-- The `min_overlap` threshold of `fuzzy_candidates`. -/
def fuzzyMinOverlap (t : String) : Nat := if 6 ≤ t.length then 2 else 1

/-- The candidates retained by `fuzzy_candidates` before ranking. -/
def fuzzyKept (idx : Indexer) (t : String) : List (String × Nat) :=
  (idx.fuzzyCounts t).filter (fun p => fuzzyMinOverlap t ≤ p.2)

/-- The retained candidates, stable-sorted by count descending. -/
def fuzzyRanked (idx : Indexer) (t : String) : List (String × Nat) :=
  pySortedByKey (fun p : String × Nat => (-(p.2 : ℚ), 0)) (fuzzyKept idx t)

/-! ## Claim C4 -/

/-- Aggregate invariant tying an optional posting to the number of token
occurrences it accounts for. -/
def postingAgg (q : Option Posting) (n : Nat) : Prop :=
  (q = none ∧ n = 0) ∨
  (∃ p, q = some p ∧ p.tf = n ∧ dictSumValues p.tf_by_field = n ∧ 1 ≤ n ∧ p.fields ≠ [])

theorem pySortedByKey_perm {α : Type} (key : α → ℚ × Int) (l : List α) :
    (pySortedByKey key l).Perm l := by
  have h := (List.perm_insertionSort (pyKey key) l.enum).map Prod.snd
  simpa [pySortedByKey, List.enum_map_snd] using h

/-- Nonstrict key ordering along the output of `pySortedByKey`. -/
theorem pySortedByKey_pairwise {α : Type} (key : α → ℚ × Int) (l : List α) :
    List.Pairwise
      (fun a b => (key a).1 < (key b).1 ∨
        ((key a).1 = (key b).1 ∧ ((key a).2 < (key b).2 ∨ (key a).2 = (key b).2)))
      (pySortedByKey key l) := by
  have hs : List.Pairwise (pyKey key) (l.enum.insertionSort (pyKey key)) :=
    List.sorted_insertionSort (pyKey key) l.enum
  unfold pySortedByKey
  rw [List.pairwise_map]
  refine hs.imp ?_
  intro x y h
  rcases h with h | ⟨e, h⟩
  · exact Or.inl h
  · rcases h with h | ⟨e2, _⟩
    · exact Or.inr ⟨e, Or.inl h⟩
    · exact Or.inr ⟨e, Or.inr e2⟩

/-- The enum indices attached while sorting are pairwise distinct. -/
theorem pySorted_enum_fst_ne {α : Type} (key : α → ℚ × Int) (l : List α) :
    List.Pairwise (fun x y : Nat × α => x.1 ≠ y.1)
      (l.enum.insertionSort (pyKey key)) := by
  have hperm := (List.perm_insertionSort (pyKey key) l.enum).map Prod.fst
  have hnodup : ((l.enum.insertionSort (pyKey key)).map Prod.fst).Nodup := by
    refine hperm.nodup_iff.mpr ?_
    rw [List.enum_map_fst]
    exact List.nodup_range _
  exact List.pairwise_map.mp hnodup

/-- With pairwise-distinct keys the stable sort is strictly ordered by key. -/
theorem pySortedByKey_pairwise_strict {α : Type} (key : α → ℚ × Int) (l : List α)
    (hne : List.Pairwise (fun a b => key a ≠ key b) l) :
    List.Pairwise
      (fun a b => (key a).1 < (key b).1 ∨ ((key a).1 = (key b).1 ∧ (key a).2 < (key b).2))
      (pySortedByKey key l) := by
  have hmono : List.Pairwise
      (fun a b => (key a).1 < (key b).1 ∨
        ((key a).1 = (key b).1 ∧ ((key a).2 < (key b).2 ∨ (key a).2 = (key b).2)))
      (pySortedByKey key l) := pySortedByKey_pairwise key l
  have hsym : ∀ {x y : α}, key x ≠ key y → key y ≠ key x := fun h => Ne.symm h
  have hne2 : List.Pairwise (fun a b => key a ≠ key b) (pySortedByKey key l) :=
    ((pySortedByKey_perm key l).pairwise_iff hsym).mpr hne
  refine (hmono.and hne2).imp ?_
  intro a b ⟨h1, h2⟩
  rcases h1 with h | ⟨e, h⟩
  · exact Or.inl h
  · rcases h with h | e2
    · exact Or.inr ⟨e, h⟩
    · exact absurd (Prod.ext e e2) h2

/-- Stability: elements whose sort keys are equal stay in their original
relative order (stated via `indexOf` into the duplicate-free input list). -/
theorem pySortedByKey_stable {α : Type} [DecidableEq α] (key : α → ℚ × Int)
    (l : List α) (hl : l.Nodup) :
    List.Pairwise
      (fun a b => key a = key b → posIn l a < posIn l b)
      (pySortedByKey key l) := by
  have hs : List.Pairwise (pyKey key) (l.enum.insertionSort (pyKey key)) :=
    List.sorted_insertionSort (pyKey key) l.enum
  have hids := pySorted_enum_fst_ne key l
  have hcomb := hs.and hids
  unfold pySortedByKey
  rw [List.pairwise_map]
  refine hcomb.imp_of_mem ?_
  intro x y hx hy ⟨hk, hne⟩
  intro hkeq
  have hxe : x ∈ l.enum := (List.perm_insertionSort (pyKey key) l.enum).mem_iff.mp hx
  have hye : y ∈ l.enum := (List.perm_insertionSort (pyKey key) l.enum).mem_iff.mp hy
  have hx' : l[x.1]? = some x.2 := by
    have := List.mk_mem_enum_iff_getElem?.mp (by simpa using hxe)
    simpa using this
  have hy' : l[y.1]? = some y.2 := by
    have := List.mk_mem_enum_iff_getElem?.mp (by simpa using hye)
    simpa using this
  have hxlen : x.1 < l.length := by
    rcases List.getElem?_eq_some.mp hx' with ⟨h, _⟩
    exact h
  have hylen : y.1 < l.length := by
    rcases List.getElem?_eq_some.mp hy' with ⟨h, _⟩
    exact h
  have hxget : l[x.1] = x.2 := by
    rcases List.getElem?_eq_some.mp hx' with ⟨h, hv⟩
    exact hv
  have hyget : l[y.1] = y.2 := by
    rcases List.getElem?_eq_some.mp hy' with ⟨h, hv⟩
    exact hv
  have hxidx : posIn l x.2 = x.1 := by
    have := List.indexOf_getElem hl x.1 hxlen
    rw [hxget] at this
    exact this
  have hyidx : posIn l y.2 = y.1 := by
    have := List.indexOf_getElem hl y.1 hylen
    rw [hyget] at this
    exact this
  rw [hxidx, hyidx]
  rcases hk with h | ⟨e, h⟩
  · rw [hkeq] at h
    exact absurd h (lt_irrefl _)
  · rcases h with h | ⟨e2, hle⟩
    · rw [hkeq] at h
      exact absurd h (lt_irrefl _)
    · exact lt_of_le_of_ne hle hne

theorem dictGet?_set_self {α β : Type} [DecidableEq α] (d : PyDict α β) (a : α) (b : β) :
    dictGet? (dictSet d a b) a = some b := by
  induction d with
  | nil => simp [dictSet, dictGet?]
  | cons kv d ih =>
    by_cases h : kv.1 = a
    · simp [dictSet, dictGet?, h]
    · simp [dictSet, dictGet?, h, ih]

theorem dictGet?_set_ne {α β : Type} [DecidableEq α] (d : PyDict α β) (a k : α) (b : β)
    (h : k ≠ a) : dictGet? (dictSet d a b) k = dictGet? d k := by
  induction d with
  | nil =>
    have h2 : a ≠ k := fun he => h he.symm
    simp [dictSet, dictGet?, h2]
  | cons kv d ih =>
    obtain ⟨k0, v0⟩ := kv
    by_cases hk : k0 = a
    · subst hk
      have h2 : ¬k0 = k := fun he => h he.symm
      simp [dictSet, dictGet?, h2]
    · by_cases hk2 : k0 = k
      · simp [dictSet, dictGet?, hk, hk2, h]
      · simp [dictSet, dictGet?, hk, hk2, ih]

theorem dictKeys_set {α β : Type} [DecidableEq α] (d : PyDict α β) (a : α) (b : β) :
    dictKeys (dictSet d a b) =
      if a ∈ dictKeys d then dictKeys d else dictKeys d ++ [a] := by
  induction d with
  | nil => simp [dictSet, dictKeys]
  | cons kv d ih =>
    obtain ⟨k0, v0⟩ := kv
    by_cases h : k0 = a
    · subst h
      simp [dictSet, dictKeys]
    · have h2 : a ≠ k0 := fun he => h he.symm
      by_cases hm : a ∈ dictKeys d
      · simp only [dictSet, if_neg h, dictKeys, List.map_cons] at *
        rw [ih]
        simp [hm, h2]
      · simp only [dictSet, if_neg h, dictKeys, List.map_cons] at *
        rw [ih]
        simp [hm, h2]

theorem DictNodup.set {α β : Type} [DecidableEq α] {d : PyDict α β}
    (hd : DictNodup d) (a : α) (b : β) : DictNodup (dictSet d a b) := by
  unfold DictNodup at *
  rw [dictKeys_set]
  by_cases hm : a ∈ dictKeys d
  · simpa [hm] using hd
  · simp only [hm, if_false]
    exact List.Nodup.append hd (List.nodup_singleton a) (by simpa using hm)

theorem DictNodup.nil {α β : Type} : DictNodup ([] : PyDict α β) := by
  simp [DictNodup, dictKeys]

/-- Keys of a fold whose every step preserves key uniqueness stay unique. -/
theorem DictNodup.foldl {α β γ : Type} (f : PyDict α β → γ → PyDict α β)
    (hf : ∀ d x, DictNodup d → DictNodup (f d x)) :
    ∀ (l : List γ) (d : PyDict α β), DictNodup d → DictNodup (l.foldl f d) := by
  intro l
  induction l with
  | nil => intro d hd; simpa using hd
  | cons x xs ih => intro d hd; exact ih (f d x) (hf d x hd)

/-! ## Claim C6 -/

/-- Claim C6: with lemmatization enabled, tokenizing the spec's example input
yields exactly the sequence cafe, run, 2025, hello, world, through the
pipeline lower-case, NFKD accent strip, punctuation to space, whitespace
split, stop-word removal, verb-pos then noun-pos lemmatization. -/
theorem spec_c6_tokenize_example :
    tokenize englishLexicon "Café running in 2025, hello world!" true =
      ["cafe", "run", "2025", "hello", "world"] := by
  decide

/-! ## Claim C9 -/

/-- Claim C9: after every heartbeat update the membership status is the
deterministic classification of the consecutive-failure counter (DOWN iff
at least 5, SUSPECT iff between 2 and 4, UP iff below 2); a successful
probe (HTTP 200) resets the counter and sets ready; a newly seen replica
starts SUSPECT with zero failures and not ready. -/
theorem spec_c9_heartbeat_membership :
    (∀ (s : ReplicaState) (res : ProbeResult) (now : ℚ),
      (((heartbeatUpdate s res now).status = .down ↔
          HEARTBEAT_DOWN_AFTER_FAILURES ≤ (heartbeatUpdate s res now).consecutive_failures) ∧
        ((heartbeatUpdate s res now).status = .suspect ↔
          HEARTBEAT_SUSPECT_AFTER_FAILURES ≤ (heartbeatUpdate s res now).consecutive_failures ∧
            (heartbeatUpdate s res now).consecutive_failures < HEARTBEAT_DOWN_AFTER_FAILURES) ∧
        ((heartbeatUpdate s res now).status = .up ↔
          (heartbeatUpdate s res now).consecutive_failures < HEARTBEAT_SUSPECT_AFTER_FAILURES)) ∧
      (∀ rtt, res = .http 200 rtt →
        (heartbeatUpdate s res now).consecutive_failures = 0 ∧
          (heartbeatUpdate s res now).ready = true)) ∧
    (ReplicaState.init.status = .suspect ∧ ReplicaState.init.consecutive_failures = 0 ∧
      ReplicaState.init.ready = false) := by
  refine ⟨?_, by decide⟩
  intro s res now
  constructor
  · cases res with
    | exn =>
      simp only [heartbeatUpdate, HEARTBEAT_DOWN_AFTER_FAILURES,
        HEARTBEAT_SUSPECT_AFTER_FAILURES]
      split_ifs with h1 h2 <;> simp_all <;> omega
    | http code rtt =>
      simp only [heartbeatUpdate, HEARTBEAT_DOWN_AFTER_FAILURES,
        HEARTBEAT_SUSPECT_AFTER_FAILURES]
      split_ifs with h0 h1 h2 <;> simp_all <;> omega
  · intro rtt hres
    subst hres
    simp [heartbeatUpdate, HEARTBEAT_DOWN_AFTER_FAILURES,
      HEARTBEAT_SUSPECT_AFTER_FAILURES]

/-- Witness for C9 at concrete states: a fifth consecutive failure turns the
replica DOWN, and a 200 probe resets the counter and readiness. -/
theorem spec_c9_witness :
    (heartbeatUpdate ⟨.up, 4, none, none, true⟩ .exn 0).status = .down ∧
    (heartbeatUpdate ⟨.down, 7, none, none, false⟩ (.http 200 1) 0).consecutive_failures = 0 ∧
    (heartbeatUpdate ⟨.down, 7, none, none, false⟩ (.http 200 1) 0).ready = true := by
  refine ⟨?_, ?_, ?_⟩
  · exact (((spec_c9_heartbeat_membership.1 ⟨.up, 4, none, none, true⟩ .exn 0).1).1).mpr
      (by decide)
  · exact ((spec_c9_heartbeat_membership.1 ⟨.down, 7, none, none, false⟩ (.http 200 1) 0).2
      1 rfl).1
  · exact ((spec_c9_heartbeat_membership.1 ⟨.down, 7, none, none, false⟩ (.http 200 1) 0).2
      1 rfl).2

/-! ## Claim C8 -/

/-- Claim C8: the shard service raises INDEX_NOT_READY exactly when the
indexer holds zero documents (checked before query validation); otherwise
it raises INVALID_QUERY exactly when the query strips to empty or the page
is below 1; in all remaining cases it returns a response. -/
theorem spec_c8_service_errors (c : Collab) (lex : Lexicon) (idx : Indexer)
    (q : String) (page : Int) (page_size : Nat) (debug : Bool) :
    (SearchService.search c lex idx q page page_size debug = .error .INDEX_NOT_READY ↔
      idx.total_documents = 0) ∧
    (SearchService.search c lex idx q page page_size debug = .error .INVALID_QUERY ↔
      idx.total_documents ≠ 0 ∧ (pyStrip q = "" ∨ page < 1)) ∧
    ((∃ resp, SearchService.search c lex idx q page page_size debug = .ok resp) ↔
      idx.total_documents ≠ 0 ∧ pyStrip q ≠ "" ∧ 1 ≤ page) := by
  unfold SearchService.search
  split_ifs with h1 h2 h3
  · simp [h1]
  · simp [h1, h2]
  · simp [h1, h2, h3]
  · have h4 : 1 ≤ page := by omega
    simp [h1, h2, h3, h4]

/-! ## Claim C3 -/

theorem buildField_total (idx : Indexer) (lex : Lexicon) (doc : Document)
    (seen : List String) (f : String) :
    (Indexer.buildField idx lex doc seen f).1.total_documents = idx.total_documents := rfl

theorem buildFields_total (lex : Lexicon) (doc : Document) (fs : List String) :
    ∀ st : Indexer × List String,
      ((fs.foldl (fun st field => Indexer.buildField st.1 lex doc st.2 field) st).1).total_documents
        = st.1.total_documents := by
  induction fs with
  | nil => intro st; rfl
  | cons f fs ih =>
    intro st
    rw [List.foldl_cons, ih]
    exact buildField_total st.1 lex doc st.2 f

theorem buildDoc_total (idx : Indexer) (lex : Lexicon) (fields : List String)
    (doc : Document) :
    (idx.buildDoc lex fields doc).total_documents = idx.total_documents + 1 := by
  unfold Indexer.buildDoc
  rw [buildFields_total]

theorem buildFold_total (lex : Lexicon) (fields : List String) :
    ∀ (ds : List Document) (idx : Indexer),
      (ds.foldl (fun ix doc => ix.buildDoc lex fields doc) idx).total_documents
        = idx.total_documents + ds.length := by
  intro ds
  induction ds with
  | nil => intro idx; rfl
  | cons doc ds ih =>
    intro idx
    rw [List.foldl_cons, ih, buildDoc_total, List.length_cons]
    omega

/-- Claim C3 (amended): after `build` from a fresh indexer,
`total_documents` equals the length of the input batch - each batch element
counts once, including repeated occurrences of the same document id. -/
theorem spec_c3_total_documents (lex : Lexicon) (ds : List Document)
    (fields : List String) :
    (Indexer.build Indexer.init lex ds fields).total_documents = ds.length := by
  unfold Indexer.build
  have h : ∀ ix : Indexer, ix.rebuildNgrams.total_documents = ix.total_documents :=
    fun ix => rfl
  rw [h, buildFold_total]
  simp [Indexer.init]

/-- Counterexample to C3 as stated: a batch repeating one document id yields
`total_documents = 2`, not the number of distinct documents added (1). -/
theorem spec_c3_counterexample :
    ¬ ((Indexer.build Indexer.init englishLexicon [docHello1, docHello1] ["title"]).total_documents
        = (dedupKeepOrder ([docHello1, docHello1].map Document.id)).length) := by
  decide

/-! ## Claim C2 -/

theorem fieldStep_budget (token : String) (idf similarity : ℚ)
    (tf_by_field : PyDict String Nat) (doc_id : Int) (st : LoopState) (field : String) :
    (fieldStep token idf similarity tf_by_field doc_id st field).fuzzy_budget
      = st.fuzzy_budget := by
  unfold fieldStep
  dsimp only
  split_ifs <;> rfl

theorem foldl_budget {γ : Type} (f : LoopState → γ → LoopState)
    (hf : ∀ st x, (f st x).fuzzy_budget = st.fuzzy_budget) :
    ∀ (l : List γ) (st : LoopState), (l.foldl f st).fuzzy_budget = st.fuzzy_budget := by
  intro l
  induction l with
  | nil => intro st; rfl
  | cons x xs ih => intro st; rw [List.foldl_cons, ih, hf]

theorem docStep_budget (token : String) (idf similarity : ℚ) (st : LoopState)
    (entry : Int × Posting) :
    (docStep token idf similarity st entry).fuzzy_budget = st.fuzzy_budget := by
  unfold docStep
  rw [foldl_budget _ (fun st x => fieldStep_budget token idf similarity entry.2.tf_by_field entry.1 st x)]

theorem matchStep_budget (c : Collab) (idx : Indexer) (token : String)
    (st : LoopState) (m : String × ℚ) :
    (matchStep c idx token st m).fuzzy_budget = st.fuzzy_budget := by
  unfold matchStep
  rw [foldl_budget _ (fun st x => docStep_budget token _ _ st x)]

/-- Claim C2 (amended): for a base token that is not pure digits, has length
at least FUZZY_MIN_TOKEN_LEN, is absent from the index and is processed with
a positive fuzzy budget, the budget is decremented by exactly one provided
the candidate list is non-empty - whether or not any fuzzy matches were
kept; when no candidates are found the budget is unchanged. -/
theorem spec_c2_fuzzy_budget (c : Collab) (idx : Indexer) (base_tokens : List String)
    (st : LoopState) (token : String)
    (habs : dictGet? idx.index token = none)
    (hbase : token ∈ base_tokens)
    (hdig : pyIsDigit token = false)
    (hlen : FUZZY_MIN_TOKEN_LEN ≤ token.length)
    (hbud : 0 < st.fuzzy_budget) :
    (idx.fuzzy_candidates token 300 ≠ [] →
      (tokenStep c idx base_tokens st token).fuzzy_budget = st.fuzzy_budget - 1) ∧
    (idx.fuzzy_candidates token 300 = [] →
      (tokenStep c idx base_tokens st token).fuzzy_budget = st.fuzzy_budget) := by
  constructor
  · intro hc
    unfold tokenStep
    rw [habs]
    simp only [Option.isSome_none, Bool.false_eq_true, if_false]
    rw [if_neg (by simp [hbase]), if_neg (by simp [hdig]), if_neg (by omega),
      if_neg (by omega), if_neg hc]
    split_ifs with hm
    · rfl
    · rw [foldl_budget _ (fun st x => matchStep_budget c idx token st x)]
  · intro hc
    unfold tokenStep
    rw [habs]
    simp only [Option.isSome_none, Bool.false_eq_true, if_false]
    rw [if_neg (by simp [hbase]), if_neg (by simp [hdig]), if_neg (by omega),
      if_neg (by omega), if_pos hc]

/-- Counterexample to C2 as stated: the token satisfies every condition of
the claim (base, not digits, length 4, absent, budget 3 > 0), yet because
`fuzzy_candidates` finds nothing the budget stays 3 instead of dropping to
2. -/
theorem spec_c2_counterexample :
    dictGet? idxTwoHello.index "wxyz" = none ∧
    "wxyz" ∈ ["wxyz"] ∧
    pyIsDigit "wxyz" = false ∧
    FUZZY_MIN_TOKEN_LEN ≤ "wxyz".length ∧
    0 < (3 : Nat) ∧
    (tokenStep trivialCollab idxTwoHello ["wxyz"] ⟨[], [], 3⟩ "wxyz").fuzzy_budget = 3 ∧
    ¬ ((tokenStep trivialCollab idxTwoHello ["wxyz"] ⟨[], [], 3⟩ "wxyz").fuzzy_budget
        = 3 - 1) := by
  decide

/-- Witness for C2 (amended): the token helo is absent but has the candidate
hello; the extract collaborator returns no matches, and the budget still
drops from 3 to 2. -/
theorem spec_c2_witness :
    Indexer.fuzzy_candidates idxTwoHello "helo" 300 ≠ [] ∧
    (tokenStep trivialCollab idxTwoHello ["helo"] ⟨[], [], 3⟩ "helo").fuzzy_budget = 3 - 1 :=
  ⟨by decide,
    (spec_c2_fuzzy_budget trivialCollab idxTwoHello ["helo"] ⟨[], [], 3⟩ "helo"
      (by decide) (by decide) (by decide) (by decide) (by decide)).1 (by decide)⟩

/-! ## Claim C5 -/

theorem fieldStep_scores_nodup (token : String) (idf similarity : ℚ)
    (tf_by_field : PyDict String Nat) (doc_id : Int) (st : LoopState) (field : String)
    (h : DictNodup st.scores) :
    DictNodup (fieldStep token idf similarity tf_by_field doc_id st field).scores := by
  unfold fieldStep
  dsimp only
  split_ifs <;> first
    | exact h
    | exact DictNodup.set h _ _

theorem foldl_scores_nodup {γ : Type} (f : LoopState → γ → LoopState)
    (hf : ∀ st x, DictNodup st.scores → DictNodup (f st x).scores) :
    ∀ (l : List γ) (st : LoopState), DictNodup st.scores → DictNodup ((l.foldl f st)).scores := by
  intro l
  induction l with
  | nil => intro st h; simpa using h
  | cons x xs ih => intro st h; exact ih (f st x) (hf st x h)

theorem docStep_scores_nodup (token : String) (idf similarity : ℚ) (st : LoopState)
    (entry : Int × Posting) (h : DictNodup st.scores) :
    DictNodup (docStep token idf similarity st entry).scores := by
  unfold docStep
  refine foldl_scores_nodup _
    (fun st x => fieldStep_scores_nodup token idf similarity entry.2.tf_by_field entry.1 st x)
    _ _ ?_
  dsimp only
  split_ifs with h1
  · exact h
  · exact DictNodup.set h _ _

theorem matchStep_scores_nodup (c : Collab) (idx : Indexer) (token : String)
    (st : LoopState) (m : String × ℚ) (h : DictNodup st.scores) :
    DictNodup (matchStep c idx token st m).scores := by
  unfold matchStep
  exact foldl_scores_nodup _ (fun st x hx => docStep_scores_nodup token _ _ st x hx) _ _ h

theorem tokenStep_scores_nodup (c : Collab) (idx : Indexer) (base_tokens : List String)
    (st : LoopState) (token : String) (h : DictNodup st.scores) :
    DictNodup (tokenStep c idx base_tokens st token).scores := by
  unfold tokenStep
  dsimp only
  split_ifs <;> first
    | exact h
    | exact foldl_scores_nodup _ (fun st x hx => matchStep_scores_nodup c idx token st x hx) _ _ h

theorem searchState_scores_nodup (c : Collab) (lex : Lexicon) (idx : Indexer)
    (q : String) : DictNodup (QueryEngine.searchState c lex idx q).scores := by
  unfold QueryEngine.searchState
  exact foldl_scores_nodup _ (fun st x hx => tokenStep_scores_nodup c idx _ st x hx) _ _
    DictNodup.nil

theorem searchState_of_tokens_nil (c : Collab) (lex : Lexicon) (idx : Indexer)
    (q : String) (h : tokenize lex q true = []) :
    QueryEngine.searchState c lex idx q = ⟨[], [], FUZZY_MAX_TOKENS_PER_QUERY⟩ := by
  unfold QueryEngine.searchState
  rw [h]
  rfl

/-- Claim C5: for every query the engine's ranking is sorted by descending
score with ties broken by ascending doc id; the rendered result list is that
ranking rendered in order; an empty or all-stop-word query returns the empty
list. -/
theorem spec_c5_search_sorted (c : Collab) (lex : Lexicon) (idx : Indexer)
    (q : String) (debug : Bool) :
    List.Pairwise (fun a b : Int × ℚ => b.2 < a.2 ∨ (a.2 = b.2 ∧ a.1 < b.1))
      (QueryEngine.rankedDocs c lex idx q) ∧
    QueryEngine.search c lex idx q debug =
      (QueryEngine.rankedDocs c lex idx q).map
        (renderItem idx (QueryEngine.searchState c lex idx q).expl debug) ∧
    ((q = "" ∨ tokenize lex q true = []) → QueryEngine.search c lex idx q debug = []) := by
  refine ⟨?_, ?_, ?_⟩
  · have hnodup := searchState_scores_nodup c lex idx q
    have hfst : List.Pairwise (fun a b : Int × ℚ => a.1 ≠ b.1)
        (QueryEngine.searchState c lex idx q).scores :=
      List.pairwise_map.mp hnodup
    have hne : List.Pairwise
        (fun a b : Int × ℚ =>
          (fun p : Int × ℚ => (-p.2, p.1)) a ≠ (fun p : Int × ℚ => (-p.2, p.1)) b)
        (QueryEngine.searchState c lex idx q).scores := by
      refine hfst.imp ?_
      intro a b hab hk
      exact hab (congrArg Prod.snd hk)
    have hstrict := pySortedByKey_pairwise_strict (fun p : Int × ℚ => (-p.2, p.1))
      (QueryEngine.searchState c lex idx q).scores hne
    refine hstrict.imp ?_
    intro a b hab
    rcases hab with h | ⟨h1, h2⟩
    · exact Or.inl (by simpa using h)
    · exact Or.inr ⟨by simpa using h1, h2⟩
  · by_cases hq : q = ""
    · rw [hq]
      have hs := searchState_of_tokens_nil c lex idx "" (by rfl)
      simp [QueryEngine.search, QueryEngine.rankedDocs, hs, pySortedByKey]
    · by_cases ht : tokenize lex q true = []
      · have hs := searchState_of_tokens_nil c lex idx q ht
        simp [QueryEngine.search, QueryEngine.rankedDocs, hq, ht, hs, pySortedByKey]
      · simp [QueryEngine.search, QueryEngine.rankedDocs, hq, ht]
  · intro h
    rcases h with hq | ht
    · simp [QueryEngine.search, hq]
    · simp [QueryEngine.search, ht]

/-- Witness for C5 at the empty query: the ranking is (vacuously) sorted and
the search returns the empty list. -/
theorem spec_c5_witness :
    List.Pairwise (fun a b : Int × ℚ => b.2 < a.2 ∨ (a.2 = b.2 ∧ a.1 < b.1))
      (QueryEngine.rankedDocs trivialCollab englishLexicon idxOneHello "") ∧
    QueryEngine.search trivialCollab englishLexicon idxOneHello "" false = [] :=
  ⟨(spec_c5_search_sorted trivialCollab englishLexicon idxOneHello "" false).1,
    (spec_c5_search_sorted trivialCollab englishLexicon idxOneHello "" false).2.2 (Or.inl rfl)⟩

theorem countFold_getD (l : List String) :
    ∀ (cs : PyDict String Nat) (x : String),
      dictGetD (l.foldl (fun cs cand => dictSet cs cand (dictGetD cs cand 0 + 1)) cs) x 0
        = dictGetD cs x 0 + l.count x := by
  induction l with
  | nil => intro cs x; simp
  | cons c rest ih =>
    intro cs x
    rw [List.foldl_cons, ih]
    by_cases hc : c = x
    · subst hc
      rw [List.count_cons_self]
      have h : dictGetD (dictSet cs c (dictGetD cs c 0 + 1)) c 0 = dictGetD cs c 0 + 1 := by
        unfold dictGetD
        rw [dictGet?_set_self]
        rfl
      omega
    · have hx : x ≠ c := fun he => hc he.symm
      have h : dictGetD (dictSet cs c (dictGetD cs c 0 + 1)) x 0 = dictGetD cs x 0 := by
        unfold dictGetD
        rw [dictGet?_set_ne _ _ _ _ hx]
      rw [h, List.count_cons_of_ne hx]

theorem gramFold_getD (gi : PyDict String (List String)) (grams : List String) :
    ∀ (cs : PyDict String Nat) (x : String),
      dictGetD
        (grams.foldl
          (fun counts g =>
            (dictGetD gi g []).foldl
              (fun counts cand => dictSet counts cand (dictGetD counts cand 0 + 1)) counts)
          cs) x 0
      = dictGetD cs x 0 + ((grams.map (fun g => (dictGetD gi g []).count x)).sum) := by
  induction grams with
  | nil => intro cs x; simp
  | cons g rest ih =>
    intro cs x
    rw [List.foldl_cons, ih, countFold_getD]
    simp [Nat.add_assoc]

/-- The accumulated candidate count is the total n-gram overlap: the number
of the token's n-grams (with multiplicity) under which the candidate is
indexed. -/
theorem fuzzyCounts_getD (idx : Indexer) (t : String) (x : String) :
    dictGetD (idx.fuzzyCounts t) x 0
      = ((_ngrams t idx.ngram_n).map
          (fun g => (dictGetD idx.ngram_index g []).count x)).sum := by
  unfold Indexer.fuzzyCounts
  rw [gramFold_getD]
  simp [dictGetD, dictGet?]

theorem fuzzyCounts_nodup (idx : Indexer) (t : String) :
    DictNodup (idx.fuzzyCounts t) := by
  unfold Indexer.fuzzyCounts
  exact DictNodup.foldl _
    (fun cs g hcs => DictNodup.foldl _ (fun d x hd => DictNodup.set hd _ _) _ cs hcs) _ _
    DictNodup.nil

/-- Claim C7: `fuzzy_candidates` returns the first `max_candidates` of the
candidates whose total n-gram-overlap count reaches `min_overlap` (2 for
tokens of length at least 6, else 1), ordered by count descending with ties
kept in insertion order of the count accumulation. -/
theorem spec_c7_fuzzy_candidates (idx : Indexer) (t : String) (m : Nat) :
    Indexer.fuzzy_candidates idx t m = ((fuzzyRanked idx t).take m).map Prod.fst ∧
    (fuzzyRanked idx t).Perm (fuzzyKept idx t) ∧
    List.Pairwise (fun a b : String × Nat => b.2 ≤ a.2) (fuzzyRanked idx t) ∧
    List.Pairwise
      (fun a b : String × Nat =>
        a.2 = b.2 → posIn (fuzzyKept idx t) a < posIn (fuzzyKept idx t) b)
      (fuzzyRanked idx t) ∧
    ∀ cand, dictGetD (idx.fuzzyCounts t) cand 0
      = ((_ngrams t idx.ngram_n).map
          (fun g => (dictGetD idx.ngram_index g []).count cand)).sum := by
  refine ⟨?_, ?_, ?_, ?_, fun cand => fuzzyCounts_getD idx t cand⟩
  · by_cases h : idx.fuzzyCounts t = []
    · simp [Indexer.fuzzy_candidates, fuzzyRanked, fuzzyKept, fuzzyMinOverlap, h,
        pySortedByKey]
    · simp [Indexer.fuzzy_candidates, fuzzyRanked, fuzzyKept, fuzzyMinOverlap, h]
  · exact pySortedByKey_perm _ _
  · have h := pySortedByKey_pairwise (fun p : String × Nat => (-(p.2 : ℚ), 0))
      (fuzzyKept idx t)
    refine h.imp ?_
    intro a b hab
    rcases hab with hlt | ⟨heq, _⟩
    · have : (b.2 : ℚ) < (a.2 : ℚ) := by simpa using hlt
      exact_mod_cast this.le
    · have : (a.2 : ℚ) = (b.2 : ℚ) := by simpa using heq
      have : a.2 = b.2 := by exact_mod_cast this
      omega
  · have hnodup : (fuzzyKept idx t).Nodup := by
      have hk := fuzzyCounts_nodup idx t
      have hpairs : (idx.fuzzyCounts t).Nodup := List.Nodup.of_map Prod.fst hk
      exact hpairs.filter _
    have h := pySortedByKey_stable (fun p : String × Nat => (-(p.2 : ℚ), 0))
      (fuzzyKept idx t) hnodup
    refine h.imp ?_
    intro a b hab h2
    exact hab (by simp only []; rw [h2])

/-- Witness for C7 at a concrete index and token: the overlap count of the
vocabulary token hello for the query token helo matches the n-gram overlap
sum. -/
theorem spec_c7_witness :
    dictGetD (Indexer.fuzzyCounts idxTwoHello "helo") "hello" 0
      = ((_ngrams "helo" idxTwoHello.ngram_n).map
          (fun g => (dictGetD idxTwoHello.ngram_index g []).count "hello")).sum :=
  (spec_c7_fuzzy_candidates idxTwoHello "helo" 300).2.2.2.2 "hello"

/-! ## Claim C10 -/

/-- Claim C10: for a ready index, a valid query and a page whose start
offset is at or past the number of matching documents, the service succeeds
with an empty result list while `total_hits` still reports the full match
count. -/
theorem spec_c10_out_of_range_page (c : Collab) (lex : Lexicon) (idx : Indexer)
    (q : String) (page : Int) (page_size : Nat) (debug : Bool)
    (h1 : idx.total_documents ≠ 0) (h2 : pyStrip q ≠ "") (h3 : 1 ≤ page)
    (h4 : (QueryEngine.search c lex idx q debug).length ≤ (page - 1).toNat * page_size) :
    SearchService.search c lex idx q page page_size debug =
      .ok ⟨q, (QueryEngine.search c lex idx q debug).length, page, page_size, []⟩ := by
  unfold SearchService.search
  rw [if_neg h1, if_neg h2, if_neg (by omega : ¬page < 1)]
  have hdrop : (QueryEngine.search c lex idx q debug).drop ((page - 1).toNat * page_size)
      = [] := List.drop_eq_nil_of_le h4
  simp only [pySlice, hdrop, List.take_nil, List.map_nil]

/-- Witness for C10: one indexed document, a matching query, page 5 of size
10 - the service succeeds with no results and `total_hits` equal to the
match count. -/
theorem spec_c10_witness :
    idxOneHello.total_documents ≠ 0 ∧
    pyStrip "hello" ≠ "" ∧
    (1 : Int) ≤ 5 ∧
    (QueryEngine.search trivialCollab englishLexicon idxOneHello "hello" true).length
      ≤ ((5 : Int) - 1).toNat * 10 ∧
    SearchService.search trivialCollab englishLexicon idxOneHello "hello" 5 10 true =
      .ok ⟨"hello",
        (QueryEngine.search trivialCollab englishLexicon idxOneHello "hello" true).length,
        5, 10, []⟩ :=
  ⟨by decide, by decide, by decide, by decide,
    spec_c10_out_of_range_page trivialCollab englishLexicon idxOneHello "hello" 5 10 true
      (by decide) (by decide) (by decide) (by decide)⟩

/-! ## Claim C1 -/

theorem pySortedByKey_length {α : Type} (key : α → ℚ × Int) (l : List α) :
    (pySortedByKey key l).length = l.length :=
  (pySortedByKey_perm key l).length_eq

/-- Claim C1 is violated by the code (a pagination bug): with two shard
groups each holding one document matching the query and client page 2 of
size 1, every shard group succeeds, yet the coordinator returns an empty
results list while the combined-index page (the slice of the union sorted
by `(-score, doc_id)`) holds exactly one document.  The cause: the shard is
sent the client's `page` together with `page_size = page * page_size`, so it
slices `[2:4]` of its one-hit ranking instead of returning its top hits. -/
theorem spec_c1_fanout_bug :
    (Coordinator.search trivialCollab englishLexicon [idxOneHello, idxOneHello2]
        "hello" 2 1 false).all_ok = true ∧
    (Coordinator.search trivialCollab englishLexicon [idxOneHello, idxOneHello2]
        "hello" 2 1 false).results = [] ∧
    (Coordinator.search trivialCollab englishLexicon [idxOneHello, idxOneHello2]
        "hello" 2 1 false).total_hits = 2 ∧
    (globalPage trivialCollab englishLexicon [idxOneHello, idxOneHello2]
        "hello" 2 1).length = 1 := by
  refine ⟨by decide, by decide, by decide, ?_⟩
  have h1 : (QueryEngine.rankedDocs trivialCollab englishLexicon idxOneHello
      "hello").length = 1 := by
    unfold QueryEngine.rankedDocs
    rw [pySortedByKey_length]
    decide
  have h2 : (QueryEngine.rankedDocs trivialCollab englishLexicon idxOneHello2
      "hello").length = 1 := by
    unfold QueryEngine.rankedDocs
    rw [pySortedByKey_length]
    decide
  unfold globalPage
  simp only [List.map_cons, List.map_nil, pySlice]
  rw [List.length_take, List.length_drop, pySortedByKey_length]
  simp [h1, h2]

theorem postingOf_step_ne_token (d : Int) (f : String)
    (ix : PyDict String (PyDict Int Posting)) (x t : String) (hx : x ≠ t) (d' : Int) :
    postingOf (addTokensIndexStep d f ix x) t d' = postingOf ix t d' := by
  unfold addTokensIndexStep postingOf
  rw [dictGet?_set_ne _ _ _ _ (fun he => hx he.symm)]

theorem postingOf_step_self_ne_doc (d : Int) (f : String)
    (ix : PyDict String (PyDict Int Posting)) (t : String) (d' : Int) (hd : d' ≠ d) :
    postingOf (addTokensIndexStep d f ix t) t d' = postingOf ix t d' := by
  unfold addTokensIndexStep postingOf dictGetD
  rw [dictGet?_set_self]
  cases h : dictGet? ix t with
  | none => simp [h, dictSet, dictGet?, Ne.symm hd]
  | some ps => simp [h, dictGet?_set_ne _ _ _ _ hd]

theorem postingOf_step_self (d : Int) (f : String)
    (ix : PyDict String (PyDict Int Posting)) (t : String) :
    postingOf (addTokensIndexStep d f ix t) t d
      = some (bumpPosting ((postingOf ix t d).getD emptyPosting) f) := by
  unfold addTokensIndexStep postingOf dictGetD
  rw [dictGet?_set_self]
  cases h : dictGet? ix t with
  | none => simp [h, dictGet?_set_self, dictGet?]
  | some ps => simp [h, dictGet?_set_self]

theorem optBump_some (p : Posting) (f : String) (c : Nat) :
    optBump (some p) f c = some (bumpN p f c) := by
  cases c <;> rfl

theorem bumpN_bump (p : Posting) (f : String) (c : Nat) :
    bumpN (bumpPosting p f) f c = bumpN p f (c + 1) := by
  induction c with
  | zero => rfl
  | succ c ih =>
    show bumpPosting (bumpN (bumpPosting p f) f c) f = bumpPosting (bumpN p f (c + 1)) f
    rw [ih]

theorem optBump_cons (q : Option Posting) (f : String) (c : Nat) :
    optBump (some (bumpPosting (q.getD emptyPosting) f)) f c = optBump q f (c + 1) := by
  cases q with
  | none => rw [optBump_some, bumpN_bump]; rfl
  | some p => rw [optBump_some, bumpN_bump]; rfl

theorem addTokens_fold_other (d : Int) (f : String) (t : String) (d' : Int) (hd : d' ≠ d)
    (tokens : List String) :
    ∀ ix, postingOf (tokens.foldl (addTokensIndexStep d f) ix) t d' = postingOf ix t d' := by
  induction tokens with
  | nil => intro ix; rfl
  | cons x xs ih =>
    intro ix
    rw [List.foldl_cons, ih]
    by_cases hx : x = t
    · subst hx
      exact postingOf_step_self_ne_doc d f ix x d' hd
    · exact postingOf_step_ne_token d f ix x t hx d'

theorem addTokens_fold_self (d : Int) (f : String) (t : String) (tokens : List String) :
    ∀ ix, postingOf (tokens.foldl (addTokensIndexStep d f) ix) t d
      = optBump (postingOf ix t d) f (tokens.count t) := by
  induction tokens with
  | nil => intro ix; rfl
  | cons x xs ih =>
    intro ix
    rw [List.foldl_cons, ih]
    by_cases hx : x = t
    · subst hx
      rw [postingOf_step_self, List.count_cons_self, optBump_cons]
    · rw [postingOf_step_ne_token d f ix x t hx,
        List.count_cons_of_ne (fun he => hx he.symm)]

theorem buildField_index (idx : Indexer) (lex : Lexicon) (doc : Document)
    (seen : List String) (f : String) :
    (Indexer.buildField idx lex doc seen f).1.index
      = (tokenize lex (fieldTextOf doc f) true).foldl (addTokensIndexStep doc.id f)
          idx.index := rfl

theorem buildFields_postingOf_other (lex : Lexicon) (doc : Document) (t : String)
    (d' : Int) (hd : d' ≠ doc.id) (fs : List String) :
    ∀ st : Indexer × List String,
      postingOf ((fs.foldl (fun st field => Indexer.buildField st.1 lex doc st.2 field) st).1.index) t d'
        = postingOf st.1.index t d' := by
  induction fs with
  | nil => intro st; rfl
  | cons f fs ih =>
    intro st
    rw [List.foldl_cons, ih, buildField_index, addTokens_fold_other _ _ _ _ hd]

theorem buildFields_postingOf_self (lex : Lexicon) (doc : Document) (t : String)
    (fs : List String) :
    ∀ st : Indexer × List String,
      postingOf ((fs.foldl (fun st field => Indexer.buildField st.1 lex doc st.2 field) st).1.index) t doc.id
        = fieldsBump lex doc t (postingOf st.1.index t doc.id) fs := by
  induction fs with
  | nil => intro st; rfl
  | cons f fs ih =>
    intro st
    rw [List.foldl_cons, ih, buildField_index, addTokens_fold_self]
    rfl

theorem buildDoc_postingOf_other (idx : Indexer) (lex : Lexicon) (fields : List String)
    (doc : Document) (t : String) (d' : Int) (hd : d' ≠ doc.id) :
    postingOf (idx.buildDoc lex fields doc).index t d' = postingOf idx.index t d' := by
  unfold Indexer.buildDoc
  exact buildFields_postingOf_other lex doc t d' hd fields _

theorem buildDoc_postingOf_self (idx : Indexer) (lex : Lexicon) (fields : List String)
    (doc : Document) (t : String) :
    postingOf (idx.buildDoc lex fields doc).index t doc.id
      = fieldsBump lex doc t (postingOf idx.index t doc.id) fields := by
  unfold Indexer.buildDoc
  exact buildFields_postingOf_self lex doc t fields _

theorem dictSumValues_bump (d : PyDict String Nat) (k : String) :
    dictSumValues (dictSet d k (dictGetD d k 0 + 1)) = dictSumValues d + 1 := by
  induction d with
  | nil => simp [dictSet, dictSumValues, dictGetD, dictGet?]
  | cons kv rest ih =>
    obtain ⟨k0, v0⟩ := kv
    by_cases h : k0 = k
    · subst h
      simp [dictSet, dictSumValues, dictGetD, dictGet?]
      omega
    · have h2 : k ≠ k0 := fun he => h he.symm
      simp only [dictSet, if_pos, if_neg h, dictSumValues, List.map_cons, List.sum_cons]
      have hget : dictGetD ((k0, v0) :: rest) k 0 = dictGetD rest k 0 := by
        simp [dictGetD, dictGet?, h]
      rw [hget]
      have := ih
      simp only [dictSumValues] at this
      omega

theorem bumpN_tf (p : Posting) (f : String) (c : Nat) : (bumpN p f c).tf = p.tf + c := by
  induction c with
  | zero => rfl
  | succ c ih =>
    show (bumpPosting (bumpN p f c) f).tf = p.tf + (c + 1)
    unfold bumpPosting
    simp [ih]
    omega

theorem bumpN_sum (p : Posting) (f : String) (c : Nat) :
    dictSumValues (bumpN p f c).tf_by_field = dictSumValues p.tf_by_field + c := by
  induction c with
  | zero => rfl
  | succ c ih =>
    show dictSumValues (bumpPosting (bumpN p f c) f).tf_by_field
      = dictSumValues p.tf_by_field + (c + 1)
    unfold bumpPosting
    simp only []
    rw [dictSumValues_bump, ih]
    omega

theorem setAdd_ne_nil {α : Type} [DecidableEq α] (s : List α) (a : α) :
    setAdd s a ≠ [] := by
  unfold setAdd
  split_ifs with h
  · exact List.ne_nil_of_mem h
  · simp

theorem bumpN_fields_ne (p : Posting) (f : String) (c : Nat) (hc : 1 ≤ c) :
    (bumpN p f c).fields ≠ [] := by
  cases c with
  | zero => omega
  | succ c =>
    show (bumpPosting (bumpN p f c) f).fields ≠ []
    unfold bumpPosting
    exact setAdd_ne_nil _ _

theorem postingAgg_optBump (q : Option Posting) (n : Nat) (f : String) (c : Nat)
    (h : postingAgg q n) : postingAgg (optBump q f c) (n + c) := by
  cases c with
  | zero => simpa [optBump] using h
  | succ c =>
    rcases h with ⟨hq, hn⟩ | ⟨p, hq, htf, hsum, hge, hf⟩
    · subst hq hn
      refine Or.inr ⟨bumpN emptyPosting f (c + 1), rfl, ?_, ?_, by omega, ?_⟩
      · rw [bumpN_tf]; rfl
      · rw [bumpN_sum]; rfl
      · exact bumpN_fields_ne _ _ _ (by omega)
    · subst hq
      refine Or.inr ⟨bumpN p f (c + 1), optBump_some p f (c + 1), ?_, ?_, by omega, ?_⟩
      · rw [bumpN_tf, htf]
      · rw [bumpN_sum, hsum]
      · exact bumpN_fields_ne _ _ _ (by omega)

theorem postingAgg_fieldsBump (lex : Lexicon) (doc : Document) (t : String)
    (fs : List String) :
    ∀ (q : Option Posting) (n : Nat), postingAgg q n →
      postingAgg (fieldsBump lex doc t q fs)
        (n + (fs.map (fun f => (tokenize lex (fieldTextOf doc f) true).count t)).sum) := by
  induction fs with
  | nil => intro q n h; simpa [fieldsBump] using h
  | cons f fs ih =>
    intro q n h
    have step := postingAgg_optBump q n f ((tokenize lex (fieldTextOf doc f) true).count t) h
    have := ih _ _ step
    unfold fieldsBump at this ⊢
    rw [List.foldl_cons]
    simp only [List.map_cons, List.sum_cons]
    have harith : n + (tokenize lex (fieldTextOf doc f) true).count t
        + (fs.map (fun f => (tokenize lex (fieldTextOf doc f) true).count t)).sum
      = n + ((tokenize lex (fieldTextOf doc f) true).count t
        + (fs.map (fun f => (tokenize lex (fieldTextOf doc f) true).count t)).sum) := by
      omega
    rw [← harith]
    exact this

theorem buildFold_postingOf (lex : Lexicon) (fields : List String) (ds : List Document) :
    ∀ idx : Indexer,
      (∀ d, d ∈ ds.map Document.id → ∀ t, postingOf idx.index t d = none) →
      (ds.map Document.id).Nodup →
      ∀ t d p,
        postingOf ((ds.foldl (fun ix doc => ix.buildDoc lex fields doc) idx).index) t d
          = some p →
        (∃ doc, doc ∈ ds ∧ doc.id = d ∧ p.tf = dictSumValues p.tf_by_field ∧
          p.tf = docOccurrences lex fields doc t ∧ 1 ≤ p.tf ∧ p.fields ≠ []) ∨
        (d ∉ ds.map Document.id ∧ postingOf idx.index t d = some p) := by
  induction ds with
  | nil =>
    intro idx hfresh hnodup t d p hp
    exact Or.inr ⟨by simp, hp⟩
  | cons doc ds ih =>
    intro idx hfresh hnodup t d p hp
    rw [List.map_cons, List.nodup_cons] at hnodup
    obtain ⟨hhead, htail⟩ := hnodup
    rw [List.foldl_cons] at hp
    have hfresh' : ∀ d', d' ∈ ds.map Document.id → ∀ t',
        postingOf (idx.buildDoc lex fields doc).index t' d' = none := by
      intro d' hd' t'
      have hne : d' ≠ doc.id := fun he => hhead (he ▸ hd')
      rw [buildDoc_postingOf_other _ _ _ _ _ _ hne]
      exact hfresh d' (by simp [hd']) t'
    rcases ih _ hfresh' htail t d p hp with ⟨doc', hmem, rest⟩ | ⟨hnot, hq⟩
    · exact Or.inl ⟨doc', List.mem_cons_of_mem _ hmem, rest⟩
    · by_cases hd : d = doc.id
      · subst hd
        rw [buildDoc_postingOf_self] at hq
        have h0 : postingOf idx.index t doc.id = none := hfresh doc.id (by simp) t
        rw [h0] at hq
        have hagg := postingAgg_fieldsBump lex doc t fields none 0 (Or.inl ⟨rfl, rfl⟩)
        rw [hq] at hagg
        rcases hagg with ⟨hnone, _⟩ | ⟨p', hps, htf, hsum, hge, hf⟩
        · exact absurd hnone (by simp)
        · have hpp : p' = p := by
            injection hps with hinj
            exact hinj.symm
          subst hpp
          refine Or.inl ⟨doc, by simp, rfl, ?_, ?_, ?_, hf⟩
          · rw [htf, hsum]
          · rw [htf]
            simp [docOccurrences]
          · omega
      · refine Or.inr ⟨?_, ?_⟩
        · simp only [List.map_cons, List.mem_cons]
          push_neg
          exact ⟨hd, hnot⟩
        · rw [buildDoc_postingOf_other _ _ _ _ _ _ hd] at hq
          exact hq

/-- Claim C4: after `build` (over documents with pairwise-distinct ids),
every stored posting's `tf` equals the sum of its `tf_by_field` values, that
sum counts exactly the occurrences of the token across the indexed fields of
the document, `tf` is at least 1 and the field set is non-empty. -/
theorem spec_c4_postings (lex : Lexicon) (ds : List Document) (fields : List String)
    (hnd : (ds.map Document.id).Nodup) (t : String) (d : Int) (p : Posting)
    (hp : postingOf (Indexer.build Indexer.init lex ds fields).index t d = some p) :
    ∃ doc, doc ∈ ds ∧ doc.id = d ∧ p.tf = dictSumValues p.tf_by_field ∧
      p.tf = docOccurrences lex fields doc t ∧ 1 ≤ p.tf ∧ p.fields ≠ [] := by
  have hp' : postingOf
      ((ds.foldl (fun ix doc => ix.buildDoc lex fields doc) Indexer.init).index) t d
      = some p := hp
  rcases buildFold_postingOf lex fields ds Indexer.init
      (fun d _ t => rfl) hnd t d p hp' with h | ⟨_, hq⟩
  · exact h
  · exact absurd hq (by simp [postingOf, Indexer.init, dictGet?])

/-- Witness for C4 on a concrete two-document corpus: the posting of token
hello under document 1 satisfies all the invariants. -/
theorem spec_c4_witness :
    ([docHello1, docHello2].map Document.id).Nodup ∧
    postingOf idxTwoHello.index "hello" 1 = some ⟨["title"], 1, [("title", 1)]⟩ ∧
    ∃ doc, doc ∈ [docHello1, docHello2] ∧ doc.id = 1 ∧
      (Posting.mk ["title"] 1 [("title", 1)]).tf
        = dictSumValues (Posting.mk ["title"] 1 [("title", 1)]).tf_by_field ∧
      (Posting.mk ["title"] 1 [("title", 1)]).tf
        = docOccurrences englishLexicon ["title"] doc "hello" ∧
      1 ≤ (Posting.mk ["title"] 1 [("title", 1)]).tf ∧
      (Posting.mk ["title"] 1 [("title", 1)]).fields ≠ [] :=
  ⟨by decide, by decide,
    spec_c4_postings englishLexicon [docHello1, docHello2] ["title"] (by decide)
      "hello" 1 ⟨["title"], 1, [("title", 1)]⟩ (by decide)⟩
